import Mathlib

/-!
Verification development for the Turkish Folk Fret Calculator (app.py).

The Python source is shallowly embedded as follows:

* Python strings are Lean `String`s; the handful of `str` methods the code
  uses (`strip`, `lower`, `replace`, `split`, `endswith`, slicing) are
  implemented here on `String.data` (`List Char`), matching CPython
  semantics for the inputs involved (fuel-based recursion where CPython
  iterates, with fuel large enough to be unreachable).
* Python floats are embedded as exact numbers: the pitch-resolution
  arithmetic (cent tables, octave shifts, comparisons) lives in `ℚ`,
  and the acoustic formulas (powers of 2) live in `ℝ`.
* Python exceptions (`KeyError` from the two table lookups, `ValueError`
  from tuple unpacking in `parse_token`) are embedded as `Except` with an
  explicit error datatype; any raised exception aborts `build_rows`, which
  the Streamlit caller surfaces as an error message with no table shown.
-/

/-! ## Python string primitives on `List Char` -/

/-- One step short of CPython `str.replace`: replace each non-overlapping
occurrence of `pat` (left to right) by `rep`, with explicit fuel.  The fuel
is always called with more than the length of the list, which is enough
for a non-empty pattern, so the fuel-exhausted branch is unreachable. -/
def replaceAux (pat rep : List Char) : Nat → List Char → List Char
  | 0, l => l
  | _, [] => []
  | fuel + 1, c :: cs =>
    if pat.isPrefixOf (c :: cs) then rep ++ replaceAux pat rep fuel ((c :: cs).drop pat.length)
    else c :: replaceAux pat rep fuel cs

/-- CPython `s.replace(pat, rep)` for a non-empty pattern. -/
def pyReplace (s pat rep : String) : String :=
  String.mk (replaceAux pat.data rep.data (s.data.length + 1) s.data)

/-- CPython `s.strip()` (default whitespace stripping). -/
def pyStrip (s : String) : String :=
  String.mk (((s.data.dropWhile Char.isWhitespace).reverse.dropWhile Char.isWhitespace).reverse)

/-- CPython `s.lower()` (the tokens involved are ASCII). -/
def pyLower (s : String) : String :=
  String.mk (s.data.map Char.toLower)

/-- CPython `c in s` for a single character. -/
def pyContains (s : String) (c : Char) : Bool :=
  s.data.contains c

/-- CPython `s.endswith(tag)`. -/
def pyEndsWith (s tag : String) : Bool :=
  tag.data.isSuffixOf s.data

/-- CPython `s[: -n]` for `0 < n`: drop the last `n` characters. -/
def pyDropRight (s : String) (n : Nat) : String :=
  String.mk (s.data.take (s.data.length - n))

/-- Helper for CPython `s.split()`: accumulate the current word (reversed). -/
def fieldsAux : List Char → List Char → List (List Char)
  | [], [] => []
  | [], acc => [acc.reverse]
  | c :: cs, acc =>
    if c.isWhitespace then
      match acc with
      | [] => fieldsAux cs []
      | _ => acc.reverse :: fieldsAux cs []
    else fieldsAux cs (c :: acc)

/-- CPython `s.split()` with no argument: split on whitespace runs,
dropping empty fields. -/
def pyFields (s : String) : List String :=
  (fieldsAux s.data []).map String.mk

/-- Helper for CPython `s.split(sep)` with a one-character separator. -/
def splitAux (c : Char) : List Char → List Char → List (List Char)
  | [], acc => [acc.reverse]
  | x :: xs, acc =>
    if x = c then acc.reverse :: splitAux c xs [] else splitAux c xs (x :: acc)

/-- CPython `s.split(sep)` for a one-character separator (keeps empties). -/
def pySplitOn (s : String) (c : Char) : List String :=
  (splitAux c s.data []).map String.mk

/-- Decidable equality for `Except`, used to evaluate the embedded
functions on concrete inputs. -/
instance {ε α : Type} [DecidableEq ε] [DecidableEq α] : DecidableEq (Except ε α) := fun x y =>
  match x, y with
  | .ok a, .ok b =>
    if h : a = b then isTrue (by rw [h]) else isFalse (fun he => h (Except.ok.inj he))
  | .error a, .error b =>
    if h : a = b then isTrue (by rw [h]) else isFalse (fun he => h (Except.error.inj he))
  | .ok _, .error _ => isFalse (fun he => Except.noConfusion he)
  | .error _, .ok _ => isFalse (fun he => Except.noConfusion he)

/-! ## Token parser (app.py lines 110-134) -/

/-- The only exception `parse_token` itself can raise: the `ValueError`
from `base, acc = t.split()` when the split does not have exactly two
fields (app.py line 127). -/
inductive TokErr where
  | valueError
deriving DecidableEq

/-- Normalisation prefix of `parse_token` (app.py lines 120-121):
`tok.strip().lower().replace("  ", " ")` then the unicode sharp and flat
glyphs mapped to ASCII. -/
def normalize_token (tok : String) : String :=
  pyReplace (pyReplace (pyReplace (pyLower (pyStrip tok)) "  " " ") "♯" "#") "♭" "b"

/-- The accidental suffixes tried by the no-space branch, in source order
(app.py line 130): longest variants first within each glyph family. -/
def ACC_TAGS : List String := ["#5", "#3", "#2", "#1", "#", "b4", "b3", "b2", "b1", "b"]

/-- The compound (two-character) accidental suffixes: each is tried by
`parse_token` before its one-character sub-suffix. -/
def COMPOUND_TAGS : List String := ["#5", "#3", "#2", "#1", "b4", "b3", "b2", "b1"]

/-- The `for tag in [...]` loop of app.py lines 130-132: first tag that
`t` ends with, if any. -/
def findTag : List String → String → Option String
  | [], _ => none
  | tag :: rest, t => if pyEndsWith t tag then some tag else findTag rest t

/-- Embeds `parse_token` (app.py lines 110-134): split one pitch token into a
`(base, accidental)` pair.  The alias check for `sib` comes first; a token
with an internal space is split by whitespace (raising `ValueError` when
the two-element unpacking fails); otherwise the known accidental suffixes
are tried in `ACC_TAGS` order. -/
def parse_token (tok : String) : Except TokErr (String × String) :=
  let t := normalize_token tok
  if t = "sib" ∨ t = "si b" ∨ t = "si bb" then .ok ("sib", "")
  else if pyContains t ' ' then
    match pyFields t with
    | [base, acc] => .ok (base, acc)
    | _ => .error .valueError
  else
    match findTag ACC_TAGS t with
    | some tag => .ok (pyDropRight t tag.data.length, tag)
    | none => .ok (t, "")

/-! ## Tables (app.py lines 62-94) -/

/-- Embeds `DEFAULT_CENTS_ALL` (app.py lines 62-75): the complete accidental
table used internally, in cents.  The decimal float constants of the
source are embedded as exact rationals. -/
def DEFAULT_CENTS_ALL : List (String × ℚ) :=
  [("", 0),
   ("b", -2264/100),
   ("b1", -2264/100),
   ("b2", -4528/100),
   ("#3", 6792/100),
   ("#", 100),
   ("#1", 2264/100),
   ("#2", 4528/100),
   ("#5", 11320/100),
   ("b3", -6792/100),
   ("b4", -9057/100)]

/-- Embeds `BASE_FROM_RE` (app.py lines 82-94): base note positions in cents
with Re = 0. -/
def BASE_FROM_RE : List (String × ℚ) :=
  [("re", 0),
   ("mi", 200),
   ("fa", 300),
   ("fa#", 400),
   ("sol", 500),
   ("sol#", 600),
   ("la", 700),
   ("sib", 800),
   ("si", 900),
   ("do", 1000),
   ("do#", 1100)]

/-! ## Errors raised during row building -/

/-- The exceptions that can escape `build_rows` and abort the
computation: the `KeyError` of `base_cents` (app.py line 139), the
`KeyError` for a missing accidental (app.py line 171), and the
`ValueError` propagated from `parse_token` (app.py line 127).  Each
carries the text interpolated into the corresponding message. -/
inductive BuildErr where
  | unknownBase (base : String)
  | unknownAccidental (acc token : String)
  | valueError (token : String)
deriving DecidableEq

/-- Embeds `base_cents` (app.py lines 136-139): dictionary lookup with a
`KeyError` carrying the base note text when absent. -/
def base_cents (base : String) : Except BuildErr ℚ :=
  match List.lookup base BASE_FROM_RE with
  | some c => .ok c
  | none => .error (.unknownBase base)

/-- Embeds `parse_order` (app.py lines 142-149): split the free-form text on
newlines, then commas, strip each candidate and drop empties. -/
def parse_order (text : String) : List String :=
  (((pySplitOn text '\n').flatMap (fun line => pySplitOn line ',')).map pyStrip).filter
    (fun s => s ≠ "")

/-! ## The octave-wrap resolver (app.py lines 152-194) -/

/-- The per-token resolution inside the loop of `build_rows`
(app.py lines 168-174): parse the token, look up the base cents (with
the special case `BASE_FROM_RE["sib"]` of line 169), look up the
accidental in the active table (line 170-171), and return
`unshifted = base_c + acc_c`. -/
def token_unshifted (cents_table : List (String × ℚ)) (token : String) : Except BuildErr ℚ :=
  match parse_token token with
  | .error _ => .error (.valueError token)
  | .ok (base, acc) =>
    match (if base = "sib" then
             match List.lookup "sib" BASE_FROM_RE with
             | some v => Except.ok v
             | none => Except.error (BuildErr.unknownBase "sib")
           else base_cents base) with
    | .error e => .error e
    | .ok base_c =>
      match List.lookup acc cents_table with
      | some acc_c => .ok (base_c + acc_c)
      | none => .error (.unknownAccidental acc token)

/-- The cents part of the `build_rows` loop (app.py lines 163-180, 192):
walk the token list carrying `last_shifted` and the cumulative octave
`shift`; a proposed value more than `tol` below `last_shifted` bumps the
shift by 1200 once and the value is recomputed.  Emits the absolute
(unrounded) cents of each entry. -/
def build_cents_loop (cents_table : List (String × ℚ)) (tol : ℚ) :
    List String → ℚ → ℚ → Except BuildErr (List ℚ)
  | [], _, _ => .ok []
  | token :: rest, last_shifted, shift =>
    match token_unshifted cents_table token with
    | .error e => .error e
    | .ok unshifted =>
      let shift2 := if unshifted + shift < last_shifted - tol then shift + 1200 else shift
      let proposed := unshifted + shift2
      Except.map (fun cs => proposed :: cs) (build_cents_loop cents_table tol rest proposed shift2)

/-- The cents sequence emitted by `build_rows` (initial state of
app.py lines 163-164: `last_shifted = -1e9`, `shift = 0`). -/
def build_cents (order_list : List String) (cents_table : List (String × ℚ)) (tol : ℚ) :
    Except BuildErr (List ℚ) :=
  build_cents_loop cents_table tol order_list (-1000000000) 0

/-! ## Math helpers (app.py lines 100-108) -/

/-- Embeds `cents_to_ratio` (app.py lines 100-101): `2.0 ** (c / 1200.0)`. -/
noncomputable def cents_to_ratio (c : ℝ) : ℝ := (2 : ℝ) ^ (c / 1200)

/-- Embeds `freq_from_open` (app.py lines 103-104). -/
noncomputable def freq_from_open (f_open cents_from_open : ℝ) : ℝ :=
  f_open * cents_to_ratio cents_from_open

/-- Embeds `nut_to_fret_distance` (app.py lines 106-108):
`L = L0 / 2^(c/1200); d = L0 - L = L0 * (1 - 2^(-c/1200))`. -/
noncomputable def nut_to_fret_distance (scale_length cents_from_open : ℝ) : ℝ :=
  scale_length * (1 - (2 : ℝ) ^ (-cents_from_open / 1200))

/-! ## Python `round` (banker's rounding, exact-value model) -/

/-- Round a real to the nearest integer, ties to even (the behaviour of
CPython `round` on exact values). -/
noncomputable def rhe (x : ℝ) : ℤ :=
  if Int.fract x < 1/2 then ⌊x⌋
  else if 1/2 < Int.fract x then ⌊x⌋ + 1
  else if 2 ∣ ⌊x⌋ then ⌊x⌋ else ⌊x⌋ + 1

/-- CPython `round(x, ndigits)` on reals. -/
noncomputable def pyRound (ndigits : ℕ) (x : ℝ) : ℝ :=
  (rhe (x * 10 ^ ndigits) : ℝ) / 10 ^ ndigits

/-- Round a rational to the nearest integer, ties to even. -/
def rheQ (q : ℚ) : ℤ :=
  if q - ⌊q⌋ < 1/2 then ⌊q⌋
  else if 1/2 < q - ⌊q⌋ then ⌊q⌋ + 1
  else if 2 ∣ ⌊q⌋ then ⌊q⌋ else ⌊q⌋ + 1

/-- CPython `round(q, ndigits)` on rationals. -/
def pyRoundQ (ndigits : ℕ) (q : ℚ) : ℚ :=
  (rheQ (q * 10 ^ ndigits) : ℚ) / 10 ^ ndigits

/-! ## Row building (app.py lines 181-194) -/

/-- One output row: the dictionary appended at app.py lines 185-191,
with exactly the five keys `#`, `pitch`, `cents_from_re`, `frequency_hz`
and `nut_to_fret` (also the column list of line 194). -/
structure Row where
  idx : ℕ
  pitch : String
  cents_from_re : ℚ
  frequency_hz : ℝ
  nut_to_fret : ℝ

/-- The full `build_rows` loop (app.py lines 162-192): like
`build_cents_loop` but also producing the output rows with the rounded
cents, frequency and nut-to-fret distance of each entry. -/
noncomputable def build_rows_loop (f_open scale_len : ℝ) (cents_table : List (String × ℚ))
    (tol : ℚ) : List String → ℚ → ℚ → ℕ → Except BuildErr (List Row)
  | [], _, _, _ => .ok []
  | token :: rest, last_shifted, shift, idx =>
    match token_unshifted cents_table token with
    | .error e => .error e
    | .ok unshifted =>
      let shift2 := if unshifted + shift < last_shifted - tol then shift + 1200 else shift
      let proposed := unshifted + shift2
      let freq := freq_from_open f_open (proposed : ℝ)
      let dist := nut_to_fret_distance scale_len (proposed : ℝ)
      let row : Row :=
        { idx := idx + 1, pitch := token, cents_from_re := pyRoundQ 3 proposed,
          frequency_hz := pyRound 5 freq, nut_to_fret := pyRound 3 dist }
      Except.map (fun rs => row :: rs)
        (build_rows_loop f_open scale_len cents_table tol rest proposed shift2 (idx + 1))

/-- Embeds `build_rows` (app.py lines 152-194) with its initial state
(`last_shifted = -1e9`, `shift = 0`, `idx = 0`). -/
noncomputable def build_rows (order_list : List String) (f_open scale_len : ℝ)
    (cents_table : List (String × ℚ)) (small_backstep_tol : ℚ) : Except BuildErr (List Row) :=
  build_rows_loop f_open scale_len cents_table small_backstep_tol order_list (-1000000000) 0 0

/-- The rows determined by a token list and its resolved cents sequence:
row `i` carries index `i+1`, the original token text, and the rounded
cents, frequency and distance computed from the resolved cents. -/
noncomputable def mkRows (f_open scale_len : ℝ) : ℕ → List String → List ℚ → List Row
  | _, [], _ => []
  | _, _ :: _, [] => []
  | idx, token :: rest, c :: cs =>
    { idx := idx + 1, pitch := token, cents_from_re := pyRoundQ 3 c,
      frequency_hz := pyRound 5 (freq_from_open f_open (c : ℝ)),
      nut_to_fret := pyRound 3 (nut_to_fret_distance scale_len (c : ℝ)) } ::
      mkRows f_open scale_len (idx + 1) rest cs

/-- The first row that `build_rows` emits for the order `[mi, mi]` at
reference 440 and length 580 under the default table. -/
noncomputable def row1_mi_mi : Row :=
  { idx := 1, pitch := "mi", cents_from_re := pyRoundQ 3 200,
    frequency_hz := pyRound 5 (freq_from_open 440 ((200 : ℚ) : ℝ)),
    nut_to_fret := pyRound 3 (nut_to_fret_distance 580 ((200 : ℚ) : ℝ)) }

/-- The second row for the same input: identical to the first except for
the sequence index. -/
noncomputable def row2_mi_mi : Row :=
  { idx := 2, pitch := "mi", cents_from_re := pyRoundQ 3 200,
    frequency_hz := pyRound 5 (freq_from_open 440 ((200 : ℚ) : ℝ)),
    nut_to_fret := pyRound 3 (nut_to_fret_distance 580 ((200 : ℚ) : ℝ)) }

/-- Lemma: `build_rows_loop` produces exactly the rows determined by the cents
sequence of `build_cents_loop` (and fails exactly when it fails): the
frequency, distance and rounding of a row are functions of each entry's
resolved cents alone. -/
theorem build_rows_loop_eq_cents (f_open scale_len : ℝ) (cents_table : List (String × ℚ))
    (tol : ℚ) :
    ∀ (order : List String) (last_shifted shift : ℚ) (idx : ℕ),
      build_rows_loop f_open scale_len cents_table tol order last_shifted shift idx =
        Except.map (mkRows f_open scale_len idx order)
          (build_cents_loop cents_table tol order last_shifted shift) := by
  intro order
  induction order with
  | nil => intro last shift idx; simp [build_rows_loop, build_cents_loop, mkRows, Except.map]
  | cons token rest ih =>
    intro last shift idx
    simp only [build_rows_loop, build_cents_loop]
    cases hu : token_unshifted cents_table token with
    | error e => simp [Except.map]
    | ok u =>
      simp only [ih]
      cases hr : build_cents_loop cents_table tol rest (u + if u + shift < last - tol then shift + 1200 else shift) (if u + shift < last - tol then shift + 1200 else shift) with
      | error e => simp [Except.map]
      | ok cs => simp [Except.map, mkRows]

/-- Top-level form of the previous lemma. -/
theorem build_rows_eq_cents (order : List String) (f_open scale_len : ℝ)
    (cents_table : List (String × ℚ)) (tol : ℚ) :
    build_rows order f_open scale_len cents_table tol =
      Except.map (mkRows f_open scale_len 0 order) (build_cents order cents_table tol) :=
  build_rows_loop_eq_cents f_open scale_len cents_table tol order (-1000000000) 0 0

/-! ## The input gate of the UI layer (app.py lines 206-207, 260-263) -/

/-- Modelled from the spec: the sidebar widgets (app.py lines 206-207)
are Streamlit `number_input`s with `min_value=0.01`; the widget refuses
any value below `min_value`, so no smaller value can reach the
computation.  The widget itself is library code outside this repository,
embedded here as an `Option`-returning gate. -/
def number_input (min_value value : ℚ) : Option ℚ :=
  if value < min_value then none else some value

/-- The compute path of the app (app.py lines 260-263): the gated
reference frequency and string length feed `build_rows` over the parsed
pitch order.  `none` means the input was rejected before `build_rows`
ran, so no row was computed. -/
noncomputable def app_compute (ref_hz scale_len : ℚ) (order_text : String)
    (cents_table : List (String × ℚ)) : Option (Except BuildErr (List Row)) :=
  match number_input (1/100) ref_hz, number_input (1/100) scale_len with
  | some r, some l => some (build_rows (parse_order order_text) (r : ℝ) (l : ℝ) cents_table 100)
  | _, _ => none

/-- Unfolding one iteration of the resolver loop when the wrap condition
does not fire (the `else` path of app.py lines 177-179). -/
theorem build_cents_loop_cons_nowrap (cents_table : List (String × ℚ)) (tol : ℚ)
    (token : String) (rest : List String) (last_shifted shift u : ℚ)
    (hu : token_unshifted cents_table token = .ok u)
    (hc : ¬(u + shift < last_shifted - tol)) :
    build_cents_loop cents_table tol (token :: rest) last_shifted shift =
      Except.map (fun cs => (u + shift) :: cs)
        (build_cents_loop cents_table tol rest (u + shift) shift) := by
  simp only [build_cents_loop, hu, if_neg hc]

/-- Unfolding one iteration of the resolver loop when the wrap condition
fires: the shift is bumped by 1200 exactly once and the proposed value is
recomputed (app.py lines 177-179). -/
theorem build_cents_loop_cons_wrap (cents_table : List (String × ℚ)) (tol : ℚ)
    (token : String) (rest : List String) (last_shifted shift u : ℚ)
    (hu : token_unshifted cents_table token = .ok u)
    (hc : u + shift < last_shifted - tol) :
    build_cents_loop cents_table tol (token :: rest) last_shifted shift =
      Except.map (fun cs => (u + (shift + 1200)) :: cs)
        (build_cents_loop cents_table tol rest (u + (shift + 1200)) (shift + 1200)) := by
  simp only [build_cents_loop, hu, if_pos hc]

/-! ## Suffix reasoning helpers -/

/-- Two suffixes of the same list with equal lengths are equal. -/
theorem suffix_eq_of_length {l s1 s2 : List Char} (h1 : s1 <:+ l) (h2 : s2 <:+ l)
    (hlen : s1.length = s2.length) : s1 = s2 := by
  obtain ⟨u1, hu1⟩ := h1
  obtain ⟨u2, hu2⟩ := h2
  rw [← hu1] at hu2
  have hlu : u2.length = u1.length := by
    have hl := congrArg List.length hu2
    simp only [List.length_append] at hl
    omega
  exact ((List.append_inj hu2 hlu).2).symm

/-- Fact: `isPrefixOf` agrees with the prefix relation on `List Char`. -/
theorem isPrefixOf_iff_char : ∀ {l1 l2 : List Char}, l1.isPrefixOf l2 = true ↔ l1 <+: l2 := by
  intro l1
  induction l1 with
  | nil => intro l2; simp [List.isPrefixOf]
  | cons a l ih =>
    intro l2
    cases l2 with
    | nil => simp [List.isPrefixOf]
    | cons b m =>
      simp only [List.isPrefixOf, Bool.and_eq_true, beq_iff_eq, ih, List.cons_prefix_cons]

/-- Fact: `pyEndsWith` agrees with the suffix relation on the char lists. -/
theorem pyEndsWith_iff {t tag : String} : pyEndsWith t tag = true ↔ tag.data <:+ t.data := by
  rw [pyEndsWith, List.isSuffixOf, isPrefixOf_iff_char]
  constructor
  · intro h
    have := h.reverse
    simpa using this
  · intro h
    exact h.reverse

/-- A two-character string that differs from another two-character
string cannot also be a suffix of `t`. -/
theorem pyEndsWith_false_two_two (u v : String) {t : String} (hu : u.data.length = 2)
    (hv : v.data.length = 2) (hne : u ≠ v) (h : pyEndsWith t v = true) :
    pyEndsWith t u = false := by
  cases hx : pyEndsWith t u with
  | false => rfl
  | true =>
    exfalso
    rw [pyEndsWith_iff] at hx h
    have hdata := suffix_eq_of_length hx h (hu.trans hv.symm)
    exact hne (congrArg String.mk hdata)

/-- A one-character string whose character differs from the last
character of a two-character suffix of `t` is not a suffix of `t`. -/
theorem pyEndsWith_false_one_two (u v : String) (c a b : Char) {t : String} (hu : u.data = [c])
    (hv : v.data = [a, b]) (hne : c ≠ b) (h : pyEndsWith t v = true) :
    pyEndsWith t u = false := by
  cases hx : pyEndsWith t u with
  | false => rfl
  | true =>
    exfalso
    rw [pyEndsWith_iff, hu] at hx
    rw [pyEndsWith_iff, hv] at h
    have hb : [b] <:+ t.data := by
      obtain ⟨w, hw⟩ := h
      exact ⟨w ++ [a], by simpa [List.append_assoc] using hw⟩
    have hcb := suffix_eq_of_length hx hb rfl
    simp only [List.cons.injEq, and_true] at hcb
    exact hne hcb

/-- When `t` ends with a compound accidental tag, the suffix loop of
`parse_token` finds exactly that tag: the earlier two-character tags are
ruled out because equal-length suffixes coincide, and the earlier
one-character tag `#` is ruled out by the last character. -/
theorem findTag_eq_of_compound (t tag : String) (htag : tag ∈ COMPOUND_TAGS)
    (hend : pyEndsWith t tag = true) : findTag ACC_TAGS t = some tag := by
  fin_cases htag
  · simp [findTag, ACC_TAGS, hend]
  · have hs5 : pyEndsWith t "#5" = false := pyEndsWith_false_two_two "#5" "#3" rfl rfl (by decide) hend
    simp [findTag, ACC_TAGS, hs5, hend]
  · have hs5 : pyEndsWith t "#5" = false := pyEndsWith_false_two_two "#5" "#2" rfl rfl (by decide) hend
    have hs3 : pyEndsWith t "#3" = false := pyEndsWith_false_two_two "#3" "#2" rfl rfl (by decide) hend
    simp [findTag, ACC_TAGS, hs5, hs3, hend]
  · have hs5 : pyEndsWith t "#5" = false := pyEndsWith_false_two_two "#5" "#1" rfl rfl (by decide) hend
    have hs3 : pyEndsWith t "#3" = false := pyEndsWith_false_two_two "#3" "#1" rfl rfl (by decide) hend
    have hs2 : pyEndsWith t "#2" = false := pyEndsWith_false_two_two "#2" "#1" rfl rfl (by decide) hend
    simp [findTag, ACC_TAGS, hs5, hs3, hs2, hend]
  · have hs5 : pyEndsWith t "#5" = false := pyEndsWith_false_two_two "#5" "b4" rfl rfl (by decide) hend
    have hs3 : pyEndsWith t "#3" = false := pyEndsWith_false_two_two "#3" "b4" rfl rfl (by decide) hend
    have hs2 : pyEndsWith t "#2" = false := pyEndsWith_false_two_two "#2" "b4" rfl rfl (by decide) hend
    have hs1 : pyEndsWith t "#1" = false := pyEndsWith_false_two_two "#1" "b4" rfl rfl (by decide) hend
    have hsharp : pyEndsWith t "#" = false := pyEndsWith_false_one_two "#" "b4" '#' 'b' '4' rfl rfl (by decide) hend
    simp [findTag, ACC_TAGS, hs5, hs3, hs2, hs1, hsharp, hend]
  · have hs5 : pyEndsWith t "#5" = false := pyEndsWith_false_two_two "#5" "b3" rfl rfl (by decide) hend
    have hs3 : pyEndsWith t "#3" = false := pyEndsWith_false_two_two "#3" "b3" rfl rfl (by decide) hend
    have hs2 : pyEndsWith t "#2" = false := pyEndsWith_false_two_two "#2" "b3" rfl rfl (by decide) hend
    have hs1 : pyEndsWith t "#1" = false := pyEndsWith_false_two_two "#1" "b3" rfl rfl (by decide) hend
    have hsharp : pyEndsWith t "#" = false := pyEndsWith_false_one_two "#" "b3" '#' 'b' '3' rfl rfl (by decide) hend
    have hf4 : pyEndsWith t "b4" = false := pyEndsWith_false_two_two "b4" "b3" rfl rfl (by decide) hend
    simp [findTag, ACC_TAGS, hs5, hs3, hs2, hs1, hsharp, hf4, hend]
  · have hs5 : pyEndsWith t "#5" = false := pyEndsWith_false_two_two "#5" "b2" rfl rfl (by decide) hend
    have hs3 : pyEndsWith t "#3" = false := pyEndsWith_false_two_two "#3" "b2" rfl rfl (by decide) hend
    have hs2 : pyEndsWith t "#2" = false := pyEndsWith_false_two_two "#2" "b2" rfl rfl (by decide) hend
    have hs1 : pyEndsWith t "#1" = false := pyEndsWith_false_two_two "#1" "b2" rfl rfl (by decide) hend
    have hsharp : pyEndsWith t "#" = false := pyEndsWith_false_one_two "#" "b2" '#' 'b' '2' rfl rfl (by decide) hend
    have hf4 : pyEndsWith t "b4" = false := pyEndsWith_false_two_two "b4" "b2" rfl rfl (by decide) hend
    have hf3 : pyEndsWith t "b3" = false := pyEndsWith_false_two_two "b3" "b2" rfl rfl (by decide) hend
    simp [findTag, ACC_TAGS, hs5, hs3, hs2, hs1, hsharp, hf4, hf3, hend]
  · have hs5 : pyEndsWith t "#5" = false := pyEndsWith_false_two_two "#5" "b1" rfl rfl (by decide) hend
    have hs3 : pyEndsWith t "#3" = false := pyEndsWith_false_two_two "#3" "b1" rfl rfl (by decide) hend
    have hs2 : pyEndsWith t "#2" = false := pyEndsWith_false_two_two "#2" "b1" rfl rfl (by decide) hend
    have hs1 : pyEndsWith t "#1" = false := pyEndsWith_false_two_two "#1" "b1" rfl rfl (by decide) hend
    have hsharp : pyEndsWith t "#" = false := pyEndsWith_false_one_two "#" "b1" '#' 'b' '1' rfl rfl (by decide) hend
    have hf4 : pyEndsWith t "b4" = false := pyEndsWith_false_two_two "b4" "b1" rfl rfl (by decide) hend
    have hf3 : pyEndsWith t "b3" = false := pyEndsWith_false_two_two "b3" "b1" rfl rfl (by decide) hend
    have hf2 : pyEndsWith t "b2" = false := pyEndsWith_false_two_two "b2" "b1" rfl rfl (by decide) hend
    simp [findTag, ACC_TAGS, hs5, hs3, hs2, hs1, hsharp, hf4, hf3, hf2, hend]

/-! ## Claim theorems -/

/-- C1: in the octave-wrap resolver (`build_rows` with tolerance 100),
for every entry: a proposed value exactly 100 below the previously
emitted absolute cents does not wrap and is emitted as-is; a proposed
value more than 100 below it adds exactly one 1200-cent increment to the
cumulative shift and the recomputed value is emitted. -/
theorem wrap_tolerance_boundary (cents_table : List (String × ℚ)) (token : String)
    (rest : List String) (last_shifted shift u : ℚ)
    (hu : token_unshifted cents_table token = .ok u) :
    (u + shift = last_shifted - 100 →
      build_cents_loop cents_table 100 (token :: rest) last_shifted shift =
        Except.map (fun cs => (u + shift) :: cs)
          (build_cents_loop cents_table 100 rest (u + shift) shift)) ∧
    (u + shift < last_shifted - 100 →
      build_cents_loop cents_table 100 (token :: rest) last_shifted shift =
        Except.map (fun cs => (u + (shift + 1200)) :: cs)
          (build_cents_loop cents_table 100 rest (u + (shift + 1200)) (shift + 1200))) := by
  constructor
  · intro he
    exact build_cents_loop_cons_nowrap _ _ _ _ _ _ _ hu (by rw [he]; exact lt_irrefl _)
  · intro hlt
    exact build_cents_loop_cons_wrap _ _ _ _ _ _ _ hu hlt

/-- Witness for C1 at the token `re` (unshifted cents `0 + 0`): with the
previous absolute value 100 the step is exactly at the tolerance and does
not wrap; with previous value 200 it is more than 100 below and wraps by
exactly one 1200. -/
theorem wrap_tolerance_boundary_check :
    (build_cents_loop DEFAULT_CENTS_ALL 100 ["re"] 100 0 =
      Except.map (fun cs => ((0 + 0) + 0) :: cs)
        (build_cents_loop DEFAULT_CENTS_ALL 100 [] ((0 + 0) + 0) 0)) ∧
    (build_cents_loop DEFAULT_CENTS_ALL 100 ["re"] 200 0 =
      Except.map (fun cs => ((0 + 0) + (0 + 1200)) :: cs)
        (build_cents_loop DEFAULT_CENTS_ALL 100 [] ((0 + 0) + (0 + 1200)) (0 + 1200))) :=
  ⟨(wrap_tolerance_boundary DEFAULT_CENTS_ALL "re" [] 100 0 (0 + 0) rfl).1 (by norm_num),
   (wrap_tolerance_boundary DEFAULT_CENTS_ALL "re" [] 200 0 (0 + 0) rfl).2 (by norm_num)⟩

/-- C2: for the tokens `do, re, mi b2, mi` under the default table
(base cents do = 1000, re = 0, mi = 200; accidentals "" = 0,
b2 = -45.28), the resolver emits 1000, then wraps `re` to 1200, then
emits 1354.72 for `mi b2` with no second wrap (the check compares only
against the immediately preceding emitted value 1200), then 1400. -/
theorem scenario_do_re_mib2_mi :
    build_cents ["do", "re", "mi b2", "mi"] DEFAULT_CENTS_ALL 100 =
      .ok [1000, 1200, 1354.72, 1400] := by
  have t1 : token_unshifted DEFAULT_CENTS_ALL "do" = .ok (1000 + 0) := rfl
  have t2 : token_unshifted DEFAULT_CENTS_ALL "re" = .ok (0 + 0) := rfl
  have t3 : token_unshifted DEFAULT_CENTS_ALL "mi b2" = .ok (200 + -4528/100) := rfl
  have t4 : token_unshifted DEFAULT_CENTS_ALL "mi" = .ok (200 + 0) := rfl
  rw [build_cents,
    build_cents_loop_cons_nowrap _ _ _ _ _ _ _ t1 (by norm_num),
    build_cents_loop_cons_wrap _ _ _ _ _ _ _ t2 (by norm_num),
    build_cents_loop_cons_nowrap _ _ _ _ _ _ _ t3 (by norm_num),
    build_cents_loop_cons_nowrap _ _ _ _ _ _ _ t4 (by norm_num)]
  show Except.map _ (Except.map _ (Except.map _ (Except.map _ (.ok [])))) = _
  simp only [Except.map]
  norm_num

/-- If some token of the order fails to resolve, the whole resolver run
returns an error, whichever failure comes first. -/
theorem build_cents_loop_error_of_mem (cents_table : List (String × ℚ)) (tol : ℚ) :
    ∀ (order : List String) (tok : String) (e : BuildErr), tok ∈ order →
      token_unshifted cents_table tok = .error e →
      ∀ last_shifted shift, ∃ e2,
        build_cents_loop cents_table tol order last_shifted shift = .error e2 := by
  intro order
  induction order with
  | nil => intro tok e hm; exact absurd hm (List.not_mem_nil tok)
  | cons t rest ih =>
    intro tok e hm he last shift
    cases hu : token_unshifted cents_table t with
    | error e3 => exact ⟨e3, by simp [build_cents_loop, hu]⟩
    | ok u =>
      rcases List.mem_cons.mp hm with rfl | hmem
      · rw [hu] at he; exact absurd he (by simp)
      · obtain ⟨e2, hrec⟩ := ih tok e hmem he
          (u + if u + shift < last - tol then shift + 1200 else shift)
          (if u + shift < last - tol then shift + 1200 else shift)
        exact ⟨e2, by simp [build_cents_loop, hu, hrec, Except.map]⟩

/-- C4: a token resolving to an unknown base note or unknown accidental
aborts the whole computation with an error (no rows at all); in
particular `xyz` raises the unknown-base error carrying the token text,
and `build_rows` returns that error instead of any row list. -/
theorem invalid_token_aborts :
    (∀ (order : List String) (cents_table : List (String × ℚ)) (tol : ℚ)
        (tok : String) (e : BuildErr), tok ∈ order →
        token_unshifted cents_table tok = .error e →
        ∃ e2, build_cents order cents_table tol = .error e2) ∧
    (∀ f_open scale_len : ℝ,
      build_rows ["xyz"] f_open scale_len DEFAULT_CENTS_ALL 100 =
        .error (.unknownBase "xyz")) := by
  constructor
  · intro order cents_table tol tok e hm he
    exact build_cents_loop_error_of_mem cents_table tol order tok e hm he (-1000000000) 0
  · intro f_open scale_len
    rw [build_rows_eq_cents]
    have hc : build_cents ["xyz"] DEFAULT_CENTS_ALL 100 = .error (.unknownBase "xyz") := by
      decide
    rw [hc]
    rfl

/-- Witness for C4: the token `xyz` inside a concrete order makes the
resolver abort, and the full row builder returns the unknown-base error
for the order `[xyz]`. -/
theorem invalid_token_aborts_check :
    ("xyz" ∈ ["do", "xyz"]) ∧
    token_unshifted DEFAULT_CENTS_ALL "xyz" = .error (.unknownBase "xyz") ∧
    (∃ e2, build_cents ["do", "xyz"] DEFAULT_CENTS_ALL 100 = .error e2) ∧
    build_rows ["xyz"] 440 580 DEFAULT_CENTS_ALL 100 = .error (.unknownBase "xyz") :=
  ⟨by decide, by decide,
   invalid_token_aborts.1 ["do", "xyz"] DEFAULT_CENTS_ALL 100 "xyz"
     (.unknownBase "xyz") (by decide) (by decide),
   invalid_token_aborts.2 440 580⟩

/-- C5: the acoustic converter computes
`frequency(c) = f_open * 2 ^ (c / 1200)` and
`distance(c) = L * (1 - 2 ^ (-c / 1200))` for every real cents value,
and at 0 cents the frequency is exactly the reference and the distance is
exactly 0. -/
theorem acoustic_converter_formulas (f_open scale_len c : ℝ) :
    freq_from_open f_open c = f_open * (2 : ℝ) ^ (c / 1200) ∧
    nut_to_fret_distance scale_len c = scale_len * (1 - (2 : ℝ) ^ (-c / 1200)) ∧
    freq_from_open f_open 0 = f_open ∧
    nut_to_fret_distance scale_len 0 = 0 := by
  refine ⟨rfl, rfl, ?_, ?_⟩
  · simp [freq_from_open, cents_to_ratio, Real.rpow_zero]
  · simp [nut_to_fret_distance, Real.rpow_zero]

/-- C6 counterexample: the token `si b` contains an internal space after
normalisation and its two whitespace fields are `si` and `b`, yet the
parser returns the alias pair `(sib, "")` rather than `(si, b)`. -/
theorem space_alias_counterexample :
    pyContains (normalize_token "si b") ' ' = true ∧
    pyFields (normalize_token "si b") = ["si", "b"] ∧
    parse_token "si b" = .ok ("sib", "") ∧
    parse_token "si b" ≠ .ok ("si", "b") := by
  decide

/-- C6 (amended): for every token whose normalised form contains an
internal space, is not one of the alias forms `sib`, `si b`, `si bb`,
and splits into exactly two whitespace fields, the parser returns those
two fields as base and accidental verbatim (no table check at parse
time). -/
theorem space_split_amended (tok t base acc : String)
    (ht : normalize_token tok = t)
    (h1 : t ≠ "sib") (h2 : t ≠ "si b") (h3 : t ≠ "si bb")
    (hsp : pyContains t ' ' = true)
    (hf : pyFields t = [base, acc]) :
    parse_token tok = .ok (base, acc) := by
  simp only [parse_token, ht, h1, h2, h3, hsp, hf, or_self, or_false, if_false, if_true]

/-- Witness for C6 (amended) at the token `mi b2`. -/
theorem space_split_amended_check : parse_token "mi b2" = .ok ("mi", "b2") :=
  space_split_amended "mi b2" "mi b2" "mi" "b2" (by decide) (by decide) (by decide)
    (by decide) (by decide) (by decide)

/-- C7: for every spaceless token ending in a compound (two-character)
accidental suffix, the parser extracts exactly that suffix — the longest
match is taken before any shorter one, so a compound suffix is never
mis-split; in particular `fa#3` parses to base `fa` with accidental
`#3`, never `fa#` + `3` or `fa` + `#`. -/
theorem longest_suffix_first :
    (∀ (tok t tag : String), normalize_token tok = t → tag ∈ COMPOUND_TAGS →
        pyContains t ' ' = false → pyEndsWith t tag = true →
        parse_token tok = .ok (pyDropRight t tag.data.length, tag)) ∧
    parse_token "fa#3" = .ok ("fa", "#3") ∧
    parse_token "fa#3" ≠ .ok ("fa#", "3") ∧
    parse_token "fa#3" ≠ .ok ("fa", "#") := by
  refine ⟨?_, by decide, by decide, by decide⟩
  intro tok t tag ht htag hsp hend
  have h1 : t ≠ "sib" := by
    rintro rfl
    fin_cases htag <;> revert hend <;> decide
  have h2 : t ≠ "si b" := by rintro rfl; revert hsp; decide
  have h3 : t ≠ "si bb" := by rintro rfl; revert hsp; decide
  have hft := findTag_eq_of_compound t tag htag hend
  simp only [parse_token, ht, h1, h2, h3, hsp, hft, or_self, or_false, if_false,
    Bool.false_eq_true, if_true]

/-- Witness for C7 at the token `fa#3` with the compound tag `#3`. -/
theorem longest_suffix_first_check :
    parse_token "fa#3" = .ok (pyDropRight "fa#3" ("#3" : String).data.length, "#3") ∧
    pyDropRight "fa#3" ("#3" : String).data.length = "fa" :=
  ⟨longest_suffix_first.1 "fa#3" "fa#3" "#3" (by decide) (by decide) (by decide) (by decide),
   by decide⟩

/-- C8: a non-positive reference frequency or string length is rejected
by the input gate before the computation begins: the compute path yields
`none` (no `build_rows` call, hence no rows) whenever either gated value
is non-positive, in particular for string length 0. -/
theorem nonpositive_inputs_rejected (ref_hz scale_len : ℚ) (order_text : String)
    (cents_table : List (String × ℚ)) (h : ref_hz ≤ 0 ∨ scale_len ≤ 0) :
    app_compute ref_hz scale_len order_text cents_table = none := by
  have gate : ∀ q : ℚ, q ≤ 0 → number_input (1/100) q = none := fun q hq => by
    rw [number_input, if_pos (by linarith)]
  rcases h with h | h
  · cases h2 : number_input (1/100) scale_len <;>
      rw [app_compute, gate ref_hz h, h2]
  · cases h1 : number_input (1/100) ref_hz <;>
      rw [app_compute, gate scale_len h, h1]

/-- Witness for C8: string length 0 with a valid reference frequency is
rejected before any row is computed. -/
theorem nonpositive_inputs_rejected_check :
    app_compute 440 0 "mi, fa" DEFAULT_CENTS_ALL = none :=
  nonpositive_inputs_rejected 440 0 "mi, fa" DEFAULT_CENTS_ALL (Or.inr le_rfl)

/-- C9: for every positive reference frequency and string length, both
converter functions are strictly increasing in cents. -/
theorem converter_strictly_increasing (f_open scale_len c1 c2 : ℝ)
    (hf : 0 < f_open) (hL : 0 < scale_len) (hc : c1 < c2) :
    freq_from_open f_open c1 < freq_from_open f_open c2 ∧
    nut_to_fret_distance scale_len c1 < nut_to_fret_distance scale_len c2 := by
  constructor
  · unfold freq_from_open cents_to_ratio
    exact mul_lt_mul_of_pos_left
      ((Real.rpow_lt_rpow_left_iff one_lt_two).mpr (by linarith)) hf
  · unfold nut_to_fret_distance
    have h2 : (2 : ℝ) ^ (-c2 / 1200) < (2 : ℝ) ^ (-c1 / 1200) :=
      (Real.rpow_lt_rpow_left_iff one_lt_two).mpr (by linarith)
    exact mul_lt_mul_of_pos_left (by linarith) hL

/-- Witness for C9 at reference 440, length 580, cents 0 and 1200. -/
theorem converter_strictly_increasing_check :
    freq_from_open 440 0 < freq_from_open 440 1200 ∧
    nut_to_fret_distance 580 0 < nut_to_fret_distance 580 1200 :=
  converter_strictly_increasing 440 580 0 1200 (by norm_num) (by norm_num) (by norm_num)

/-- C10: a normalised token that still contains an internal space but
does not split into exactly two whitespace fields makes `parse_token`
raise the `ValueError` from tuple unpacking — an error distinct from the
unknown-base and unknown-accidental conditions; `mi b 2` and `do  #  3`
are such tokens, and the resolver surfaces the `ValueError` for them. -/
theorem multi_field_value_error :
    (∀ tok t : String, normalize_token tok = t → pyContains t ' ' = true →
        (pyFields t).length ≠ 2 → parse_token tok = .error .valueError) ∧
    build_cents ["mi b 2"] DEFAULT_CENTS_ALL 100 = .error (.valueError "mi b 2") ∧
    parse_token "do  #  3" = .error .valueError ∧
    (∀ b, BuildErr.valueError "mi b 2" ≠ .unknownBase b) ∧
    (∀ a tk, BuildErr.valueError "mi b 2" ≠ .unknownAccidental a tk) := by
  refine ⟨?_, by decide, by decide, fun b => by simp, fun a tk => by simp⟩
  intro tok t ht hsp hlen
  have h1 : t ≠ "sib" := by rintro rfl; revert hsp; decide
  have h2 : t ≠ "si b" := by rintro rfl; exact hlen (by decide)
  have h3 : t ≠ "si bb" := by rintro rfl; exact hlen (by decide)
  simp only [parse_token, ht, h1, h2, h3, hsp, or_self, or_false, if_false, if_true]
  rcases hf : pyFields t with _ | ⟨x, _ | ⟨y, _ | ⟨z, l⟩⟩⟩
  · rfl
  · rfl
  · rw [hf] at hlen; simp at hlen
  · rfl

/-- Witness for C10 at the token `mi b 2`. -/
theorem multi_field_value_error_check : parse_token "mi b 2" = .error .valueError :=
  multi_field_value_error.1 "mi b 2" (normalize_token "mi b 2") rfl (by decide) (by decide)

/-! ## C3: the rows carry no spacing field -/

/-- Banker's rounding is at least the floor. -/
theorem rhe_ge_floor (x : ℝ) : ⌊x⌋ ≤ rhe x := by
  unfold rhe
  split_ifs <;> omega

/-- Fact: `pyRound` of a value whose scaled form is at least 1 is positive. -/
theorem pyRound_pos (n : ℕ) (x : ℝ) (hx : 1 ≤ x * 10 ^ n) : 0 < pyRound n x := by
  unfold pyRound
  have h1 : (1 : ℤ) ≤ ⌊x * 10 ^ n⌋ := Int.le_floor.mpr (by exact_mod_cast hx)
  have h2 : (1 : ℤ) ≤ rhe (x * 10 ^ n) := le_trans h1 (rhe_ge_floor _)
  have h3 : (0 : ℝ) < (rhe (x * 10 ^ n) : ℝ) := by exact_mod_cast lt_of_lt_of_le zero_lt_one h2
  exact div_pos h3 (by positivity)

/-- Banker's rounding of an integer is the integer itself. -/
theorem rheQ_intCast (z : ℤ) : rheQ (z : ℚ) = z := by
  unfold rheQ
  rw [Int.floor_intCast, sub_self, if_pos (by norm_num)]

/-- C3 counterexample: for the order `[mi, mi]` the spacing mandated by
the claim for the second row is its distance minus the first row's
distance, which is 0; but none of the fields of the emitted second row
(index, cents, frequency, distance — the pitch field is a string) equals
0, so no field of the row carries the spacing value. -/
theorem rows_lack_spacing_counterexample :
    build_rows ["mi", "mi"] 440 580 DEFAULT_CENTS_ALL 100 = .ok [row1_mi_mi, row2_mi_mi] ∧
    row2_mi_mi.nut_to_fret - row1_mi_mi.nut_to_fret = 0 ∧
    ¬((row2_mi_mi.idx : ℝ) = 0 ∨ (row2_mi_mi.cents_from_re : ℝ) = 0 ∨
      row2_mi_mi.frequency_hz = 0 ∨ row2_mi_mi.nut_to_fret = 0) := by
  have t1 : token_unshifted DEFAULT_CENTS_ALL "mi" = .ok (200 + 0) := rfl
  refine ⟨?_, sub_self _, ?_⟩
  · have hc : build_cents ["mi", "mi"] DEFAULT_CENTS_ALL 100 = .ok [200, 200] := by
      rw [build_cents,
        build_cents_loop_cons_nowrap _ _ _ _ _ _ _ t1 (by norm_num),
        build_cents_loop_cons_nowrap _ _ _ _ _ _ _ t1 (by norm_num)]
      show Except.map _ (Except.map _ (.ok [])) = _
      simp only [Except.map]
      norm_num
    rw [build_rows_eq_cents, hc]
    simp only [Except.map, mkRows, row1_mi_mi, row2_mi_mi]
  · have hcast : ((200 : ℚ) : ℝ) = (200 : ℝ) := by norm_num
    have hfreq : 0 < pyRound 5 (freq_from_open 440 ((200 : ℚ) : ℝ)) := by
      apply pyRound_pos
      rw [freq_from_open, cents_to_ratio, hcast]
      have hone : (1 : ℝ) ≤ (2 : ℝ) ^ ((200 : ℝ) / 1200) := by
        rw [show (1 : ℝ) = (2 : ℝ) ^ (0 : ℝ) from (Real.rpow_zero 2).symm]
        exact (Real.rpow_le_rpow_left_iff one_lt_two).mpr (by norm_num)
      nlinarith
    have hdist : 0 < pyRound 3 (nut_to_fret_distance 580 ((200 : ℚ) : ℝ)) := by
      apply pyRound_pos
      rw [nut_to_fret_distance, hcast]
      have hb : (2 : ℝ) ^ (-(200 : ℝ) / 1200) ≤ 9 / 10 := by
        by_contra hcon
        push_neg at hcon
        have h6 : ((2 : ℝ) ^ (-(200 : ℝ) / 1200)) ^ (6 : ℕ) = 2⁻¹ := by
          rw [← Real.rpow_natCast ((2 : ℝ) ^ (-(200 : ℝ) / 1200)) 6,
            ← Real.rpow_mul (by norm_num : (0 : ℝ) ≤ 2),
            show (-(200 : ℝ) / 1200 * (6 : ℕ)) = ((-1 : ℤ) : ℝ) by push_cast; norm_num,
            Real.rpow_intCast]
          norm_num
        have hpow : ((9 : ℝ) / 10) ^ (6 : ℕ) < ((2 : ℝ) ^ (-(200 : ℝ) / 1200)) ^ (6 : ℕ) :=
          pow_lt_pow_left₀ hcon (by norm_num) (by norm_num)
        rw [h6] at hpow
        norm_num at hpow
      nlinarith
    have hcents : pyRoundQ 3 (200 : ℚ) = 200 := by
      unfold pyRoundQ
      rw [show (200 : ℚ) * 10 ^ 3 = ((200000 : ℤ) : ℚ) by norm_num, rheQ_intCast]
      norm_num
    intro hor
    rcases hor with h | h | h | h
    · rw [row2_mi_mi] at h
      norm_num at h
    · rw [row2_mi_mi] at h
      simp only [hcents] at h
      norm_num at h
    · rw [row2_mi_mi] at h
      exact absurd h (ne_of_gt hfreq)
    · rw [row2_mi_mi] at h
      exact absurd h (ne_of_gt hdist)

/-- C3 (amended): every output row of `build_rows` consists of exactly
the five fields produced at app.py lines 185-191 — sequence index, token
text, rounded cents, rounded frequency, rounded nut-to-fret distance —
each determined by that entry's resolved cents; no spacing-from-previous
field is emitted. -/
theorem rows_have_exactly_five_fields (order : List String) (f_open scale_len : ℝ)
    (cents_table : List (String × ℚ)) (tol : ℚ) :
    build_rows order f_open scale_len cents_table tol =
      Except.map (mkRows f_open scale_len 0 order) (build_cents order cents_table tol) :=
  build_rows_eq_cents order f_open scale_len cents_table tol
